import Mathlib

/-!
Verification development for the wire-img repository.

Shallow embedding of the core components described in the project spec:
the template resolver, the request processor and its HTTP handlers
(src/api/src/main.rs), the bucketed disk storage (src/storage/src/disk.rs)
and the transcoder (src/image/src/transcoder.rs).

Rust strings are modelled as Lean `String` (operating on their `data`
character lists), `PathBuf` as a list of path components, byte vectors as
`List Nat`, and UUIDv7 generation as a strictly increasing `Nat` counter.
Fallible Rust operations become `Option`/`Except`; an `unwrap` panic is a
distinct `none`/error outcome.
-/

/-- ImageEncoding from src/configuration/src/lib.rs. -/
inductive ImageEncoding
  | AVIF
  | JPEG
  | PNG
deriving DecidableEq

/-- ImageEncoding::content_type from src/configuration/src/lib.rs. -/
def ImageEncoding.content_type : ImageEncoding → String
  | ImageEncoding.AVIF => "image/avif"
  | ImageEncoding.JPEG => "image/jpeg"
  | ImageEncoding.PNG => "image/png"

/-- ImageEncoding::extension from src/configuration/src/lib.rs.
Note the leading dot, exactly as in the source. -/
def ImageEncoding.extension : ImageEncoding → String
  | ImageEncoding.AVIF => ".avif"
  | ImageEncoding.JPEG => ".jpg"
  | ImageEncoding.PNG => ".png"

/-- TemplateType from src/configuration/src/config.rs. -/
inductive TemplateType
  | Prefix
  | Suffix
deriving DecidableEq

/-- TemplateSettings from src/configuration/src/config.rs.
The Rust field `size : [u32; 2]` is modelled as a pair. -/
structure TemplateSettings where
  location : TemplateType
  name : String
  size : Nat × Nat
  format : ImageEncoding
deriving DecidableEq

/-- ServerSettings from src/configuration/src/config.rs. -/
structure ServerSettings where
  port : Nat
  host : String
deriving DecidableEq

/-- A PathBuf, modelled as its list of components. -/
abbrev FsPath := List String

/-- ImageSettings from src/configuration/src/config.rs. -/
structure ImageSettings where
  formats : List ImageEncoding
  storage_format : ImageEncoding
  input_path : FsPath
  output_path : FsPath
deriving DecidableEq

/-- Settings from src/configuration/src/config.rs. -/
structure Settings where
  server : ServerSettings
  image : ImageSettings
  templates : List TemplateSettings
deriving DecidableEq

/-- Rust `str::split('_')` on a character list: splits at every underscore,
keeping empty pieces, and yields at least one piece (the empty string splits
to one empty piece). -/
def splitU : List Char → List (List Char)
  | [] => [[]]
  | c :: cs =>
    match splitU cs with
    | [] => [[c]]
    | h :: t => if c = '_' then [] :: h :: t else (c :: h) :: t

/-- Inverse of `splitU`: interleave the pieces with underscores. -/
def joinU : List (List Char) → List Char
  | [] => []
  | [x] => x
  | x :: y :: t => x ++ '_' :: joinU (y :: t)

/-- Rust `str::strip_prefix : (pattern, s) → Option remainder`. -/
def stripPre : List Char → List Char → Option (List Char)
  | [], l => some l
  | _ :: _, [] => none
  | p :: ps, c :: cs => if p = c then stripPre ps cs else none

/-- Rust `str::strip_suffix : (pattern, s) → Option remainder`. -/
def stripSuf (p l : List Char) : Option (List Char) :=
  (stripPre p.reverse l.reverse).map List.reverse

/-- The per-template match test of the loop body in `check_templates`
(src/api/src/main.rs lines 297-308): the `is_suffix_template` and
`is_prefix_template` booleans, combined. -/
def templateMatch (image_name : String) (t : TemplateSettings) : Bool :=
  let split_name := splitU image_name.data
  let maybePre := split_name.head?
  let maybeSuf := split_name.getLast?
  let is_suffix_template := maybeSuf.isSome
    && decide (t.location = TemplateType.Suffix)
    && decide (t.name.data = maybeSuf.getD [])
  let is_prefix_template := maybePre.isSome
    && decide (t.location = TemplateType.Prefix)
    && decide (t.name.data = maybePre.getD [])
  is_prefix_template || is_suffix_template

/-- check_templates from src/api/src/main.rs lines 283-312: split the name
on underscores, take first and last token as candidates, fail if both are
absent, otherwise return the first template of the configured list whose
location and name match a candidate (`None` models the Err outcomes). -/
def check_templates (image_name : String) (config_templates : List TemplateSettings) :
    Option TemplateSettings :=
  let split_name := splitU image_name.data
  if split_name.head? = none ∧ split_name.getLast? = none then none
  else config_templates.find? (templateMatch image_name)

/-- remove_template_pattern from src/api/src/main.rs lines 270-281.
The source calls `.unwrap()` on the strip result; the `none` outcome of this
model corresponds to that unwrap panicking. -/
def remove_template_pattern (image : String) (template : TemplateSettings) : Option String :=
  match template.location with
  | TemplateType.Prefix =>
    (stripPre (template.name.data ++ ['_']) image.data).map (fun l => String.mk l)
  | TemplateType.Suffix =>
    (stripSuf (['_'] ++ template.name.data) image.data).map (fun l => String.mk l)

/-- The spec's example prefix template. -/
def tplLarge : TemplateSettings :=
  { location := TemplateType.Prefix, name := "large", size := (1920, 1080),
    format := ImageEncoding.PNG }

/-- The spec's example suffix template. -/
def tplFull : TemplateSettings :=
  { location := TemplateType.Suffix, name := "full", size := (1280, 720),
    format := ImageEncoding.JPEG }

/-! Path model: Rust `PathBuf` as a list of components. -/

/-- Rust `Path::file_stem` on a single component: the part before the last
dot, except that a name with no dot, or only a leading dot, is its own stem. -/
def fileStem (cs : List Char) : List Char :=
  match cs with
  | [] => []
  | c :: rest =>
    if '.' ∈ rest then
      (((c :: rest).reverse.dropWhile (fun x => ¬ x = '.')).drop 1).reverse
    else c :: rest

/-- Rust `PathBuf::set_extension` on the final component (nonempty new
extension): stem plus a dot plus the new extension. -/
def fileSetExt (f e : String) : String := String.mk (fileStem f.data ++ '.' :: e.data)

/-- Rust `PathBuf::set_extension`: rewrites the extension of the last
component; a path without a file name is unchanged. -/
def pathSetExt (p : FsPath) (e : String) : FsPath :=
  match p.getLast? with
  | none => p
  | some f => p.dropLast ++ [fileSetExt f e]

/-- Rust `PathBuf::set_file_name`: replaces the last component (or pushes
when there is none). -/
def pathSetFileName (p : FsPath) (f : String) : FsPath :=
  match p.getLast? with
  | none => [f]
  | some _ => p.dropLast ++ [f]

/-- Rust `PathBuf::push` / `Path::join` with a single relative component. -/
def pathPush (p : FsPath) (c : String) : FsPath := p ++ [c]

/-! Storage layer from src/storage/src/disk.rs. -/

/-- Modelled from the spec: `Uuid::now_v7` generates time-ordered unique
IDs; the generator is modelled as a strictly increasing counter and
`Uuid::to_string` as the decimal representation. -/
def uuidStr (u : Nat) : String := toString u

/-- DiskStorage from src/storage/src/disk.rs: base path plus the sorted
list of bucket IDs found when the base directory was scanned. -/
structure DiskStorage where
  base_path : FsPath
  folders : List Nat
deriving DecidableEq

/-- DiskStorage::get_recent_folder: the last (maximum) bucket of the sorted
in-memory list. -/
def DiskStorage.get_recent_folder (s : DiskStorage) : Option Nat := s.folders.getLast?

/-- DiskStorage::get_full_path: base path joined with the bucket ID. -/
def DiskStorage.get_full_path (s : DiskStorage) (folder_uid : Nat) : FsPath :=
  pathPush s.base_path (uuidStr folder_uid)

/-- DiskStorage::create_new_folder: makes a directory named by a fresh UUID
under the base path. Returns the folder path and the advanced UUID counter;
note the source never appends the new ID to `self.folders`. -/
def DiskStorage.create_new_folder (s : DiskStorage) (ctr : Nat) : (Nat × FsPath) × Nat :=
  let uid := ctr
  let path := pathPush s.base_path (uuidStr uid)
  ((uid, path), ctr + 1)

/-- Result of one `add_new_file` call: the storage state afterwards, the
advanced UUID counter, the directories created on disk, and the path of the
written file. -/
structure AddFileResult where
  storage : DiskStorage
  next_uuid : Nat
  dirs_created : List FsPath
  file_path : FsPath
deriving DecidableEq

/-- DiskStorage::add_new_file from src/storage/src/disk.rs lines 74-97:
pick the most recent bucket or create one, then build the file path from
the folder path with `set_file_name` (which replaces the final component)
and `set_extension`, and create the file there. -/
def DiskStorage.add_new_file (s : DiskStorage) (ctr : Nat) (extension : String) :
    AddFileResult :=
  match s.get_recent_folder with
  | some f =>
    let folder_path := s.get_full_path f
    let file_path := pathSetExt (pathSetFileName folder_path (uuidStr ctr)) extension
    ⟨s, ctr + 1, [], file_path⟩
  | none =>
    let created := s.create_new_folder ctr
    let folder_path := created.1.2
    let file_path :=
      pathSetExt (pathSetFileName folder_path (uuidStr created.2)) extension
    ⟨s, created.2 + 1, [folder_path], file_path⟩

/-! Transcoder from src/image/src/transcoder.rs. -/

/-- The `image` crate's ImageFormat, restricted to the variants this
repository uses. -/
inductive ImageFormat
  | Png
  | Jpeg
  | Avif
deriving DecidableEq

/-- PixelSize from src/image/src/transcoder.rs. -/
structure PixelSize where
  width : Nat
  height : Nat
deriving DecidableEq

/-- Position from src/image/src/transcoder.rs. -/
structure Position where
  x : Nat
  y : Nat
deriving DecidableEq

/-- Operations from src/image/src/transcoder.rs. -/
inductive Operations
  | Resize (size : PixelSize)
  | Crop (pos : Position) (size : PixelSize)
deriving DecidableEq

/-- Modelled from the spec: a decoded pixel buffer, reduced to what the
claims need — its dimensions and whether it still carries an alpha channel. -/
structure PixelBuffer where
  width : Nat
  height : Nat
  alpha : Bool
deriving DecidableEq

/-- Modelled from the spec: the codec capability (the `image` crate is an
external collaborator): format sniffing, decoding, and the raw encode step. -/
structure Codec where
  guessFormat : List Nat → Option ImageFormat
  decode : List Nat → ImageFormat → Option PixelBuffer
  encodeBytes : PixelBuffer → ImageFormat → List Nat

/-- Modelled from the spec: `resize_exact` yields a buffer of exactly the
requested dimensions, keeping the channel layout. -/
def resize_exact (b : PixelBuffer) (w h : Nat) : PixelBuffer := ⟨w, h, b.alpha⟩

/-- Modelled from the spec: `crop_imm` yields a buffer of the crop size,
keeping the channel layout. -/
def crop_imm (b : PixelBuffer) (_x _y w h : Nat) : PixelBuffer := ⟨w, h, b.alpha⟩

/-- Modelled from the spec: `DynamicImage::to_rgb8` forces a 3-channel
no-alpha representation, keeping the dimensions. -/
def to_rgb8 (b : PixelBuffer) : PixelBuffer := ⟨b.width, b.height, false⟩

/-- The failure cases of `transcode`. -/
inductive TranscodeError
  | UnsupportedFormat
  | DecodeFailure
  | ChannelMismatch
deriving DecidableEq

/-- Modelled from the spec: `write_to` fails with a channel-mismatch error
when asked to encode a buffer that still carries alpha to JPEG (JPEG has no
alpha channel); otherwise it encodes via the codec. -/
def writeTo (c : Codec) (b : PixelBuffer) (f : ImageFormat) :
    Except TranscodeError (List Nat) :=
  if f = ImageFormat.Jpeg ∧ b.alpha = true then
    Except.error TranscodeError.ChannelMismatch
  else Except.ok (c.encodeBytes b f)

/-- One step of the operation loop in `transcode`. -/
def applyOp (b : PixelBuffer) (op : Operations) : PixelBuffer :=
  match op with
  | Operations.Resize s => resize_exact b s.width s.height
  | Operations.Crop p s => crop_imm b p.x p.y s.width s.height

/-- The extension fallback table of `transcode` (src/image/src/transcoder.rs
lines 73-78). -/
def extFallback (extension : String) : Option ImageFormat :=
  if extension = "png" then some ImageFormat.Png
  else if extension = "jpg" ∨ extension = "jpeg" then some ImageFormat.Jpeg
  else if extension = "avif" then some ImageFormat.Avif
  else none

/-- Transcoder::transcode from src/image/src/transcoder.rs lines 59-113:
sniff the format (falling back to the extension table), decode, apply the
operations left to right, force RGB8 when the target is JPEG, then encode. -/
def transcode (c : Codec) (image : List Nat) (extension : String)
    (target : ImageFormat) (ops : Option (List Operations)) :
    Except TranscodeError (List Nat) :=
  let sniffed :=
    match c.guessFormat image with
    | some f => some f
    | none => extFallback extension
  match sniffed with
  | none => Except.error TranscodeError.UnsupportedFormat
  | some format =>
    match c.decode image format with
    | none => Except.error TranscodeError.DecodeFailure
    | some decoded =>
      let img := (ops.getD []).foldl applyOp decoded
      if target = ImageFormat.Jpeg then writeTo c (to_rgb8 img) target
      else writeTo c img target

/-! Request processor and handlers from src/api/src/main.rs. -/

/-- The ImageEncoding → ImageFormat match inside `process`
(src/api/src/main.rs lines 221-225). -/
def encodingToImageFormat : ImageEncoding → ImageFormat
  | ImageEncoding.AVIF => ImageFormat.Avif
  | ImageEncoding.JPEG => ImageFormat.Jpeg
  | ImageEncoding.PNG => ImageFormat.Png

/-- Outcome of opening and fully reading a file. -/
inductive FsFile
  | notFound
  | openError
  | readError
  | content (bytes : List Nat)
deriving DecidableEq

/-- The filesystem as seen by the request processor: what opening and
reading each path yields. -/
abbrev Fs := FsPath → FsFile

/-- The failure cases of `process`. `PanicUnwrap` models the
`remove_template_pattern` unwrap panicking; the other constructors model the
distinct `anyhow` errors of the source. -/
inductive ProcessError
  | PanicUnwrap
  | NotFoundErr
  | OpenFailed
  | ReadFailed
  | Transcode (e : TranscodeError)
deriving DecidableEq

/-- The canonical-path computation of `process` (src/api/src/main.rs lines
185-204), literally: push the requested name onto the input path, set the
extension to "avif", then push the resolved name (template-stripped stem if
a template matched, the name itself otherwise) and set "avif" again. -/
def process_path (config : Settings) (name : String) : Except ProcessError FsPath :=
  let full_path := pathSetExt (pathPush config.image.input_path name) "avif"
  match check_templates name config.templates with
  | some template =>
    match remove_template_pattern name template with
    | some image_name => Except.ok (pathSetExt (pathPush full_path image_name) "avif")
    | none => Except.error ProcessError.PanicUnwrap
  | none => Except.ok (pathSetExt (pathPush full_path name) "avif")

/-- process from src/api/src/main.rs lines 179-268. The `op` vector below
mirrors the source's `op`, which is built from the caller's size and then
never passed to any transcode call. On a template match the transcode target
is the template's format and size; otherwise AVIF targets return the raw
bytes and JPEG/PNG targets transcode with no operations. -/
def process (config : Settings) (c : Codec) (fs : Fs) (name : String)
    (target_format : ImageEncoding) (new_size : Option PixelSize) :
    Except ProcessError (List Nat) :=
  let op : List Operations :=
    match new_size with
    | some resize_param => [Operations.Resize resize_param]
    | none => []
  let template_result := check_templates name config.templates
  match process_path config name with
  | Except.error e => Except.error e
  | Except.ok full_path =>
    match fs full_path with
    | FsFile.notFound => Except.error ProcessError.NotFoundErr
    | FsFile.openError => Except.error ProcessError.OpenFailed
    | FsFile.readError => Except.error ProcessError.ReadFailed
    | FsFile.content bytes =>
      match template_result with
      | some template =>
        (transcode c bytes template.format.extension
            (encodingToImageFormat template.format)
            (some [Operations.Resize ⟨template.size.1, template.size.2⟩])).mapError
          ProcessError.Transcode
      | none =>
        match target_format with
        | ImageEncoding.AVIF =>
          let _ := op
          Except.ok bytes
        | ImageEncoding.JPEG =>
          (transcode c bytes "avif" ImageFormat.Jpeg none).mapError ProcessError.Transcode
        | ImageEncoding.PNG =>
          (transcode c bytes "avif" ImageFormat.Png none).mapError ProcessError.Transcode

/-- A delivered HTTP response: status, optional Content-Type header, body. -/
structure HttpResponse where
  status : Nat
  contentType : Option String
  body : List Nat
deriving DecidableEq

/-- The extension match shared verbatim by `serve_image` (lines 151-156) and
`serve_resized` (lines 116-121): known extensions and the jpg alias. -/
def extensionFromStr (ext : String) : Option ImageEncoding :=
  if ext = "png" then some ImageEncoding.PNG
  else if ext = "jpg" ∨ ext = "jpeg" then some ImageEncoding.JPEG
  else if ext = "avif" then some ImageEncoding.AVIF
  else none

/-- serve_image from src/api/src/main.rs lines 147-177: parse the extension
(unknown → 400), reject encodings missing from the configured allow-list
(400), then run `process` with no resize; success is 200 with the
requested encoding's content type, any processing error is 500. -/
def serve_image (config : Settings) (c : Codec) (fs : Fs) (image ext : String) :
    HttpResponse :=
  match extensionFromStr ext with
  | none => ⟨400, none, []⟩
  | some extension =>
    if extension ∈ config.image.formats then
      match process config c fs image extension none with
      | Except.ok b => ⟨200, some extension.content_type, b⟩
      | Except.error _ => ⟨500, none, []⟩
    else ⟨400, none, []⟩

/-- serve_resized from src/api/src/main.rs lines 110-136: parse the
extension (unknown → 400) and run `process` with the explicit size; there
is no allow-list check in this handler. Success is 200 with the requested
encoding's content type, any processing error is 500. -/
def serve_resized (config : Settings) (c : Codec) (fs : Fs)
    (width height : Nat) (image ext : String) : HttpResponse :=
  let resize_params := PixelSize.mk width height
  match extensionFromStr ext with
  | none => ⟨400, none, []⟩
  | some extension =>
    match process config c fs image extension (some resize_params) with
    | Except.ok b => ⟨200, some extension.content_type, b⟩
    | Except.error _ => ⟨500, none, []⟩

/-- default_serve_image from src/api/src/main.rs lines 138-144: the
single-segment route delegates to `serve_image` with the literal "avif". -/
def default_serve_image (config : Settings) (c : Codec) (fs : Fs)
    (image : String) : HttpResponse :=
  serve_image config c fs image "avif"

/-! Concrete fixtures used by the claim theorems. -/

/-- A configuration with every encoding allowed, AVIF storage, input path
"in" and no templates. -/
def cfgPlain : Settings :=
  { server := { port := 3000, host := "127.0.0.1" },
    image := { formats := [ImageEncoding.AVIF, ImageEncoding.JPEG, ImageEncoding.PNG],
               storage_format := ImageEncoding.AVIF,
               input_path := ["in"], output_path := ["out"] },
    templates := [] }

/-- cfgPlain but with only AVIF in the allow-list. -/
def cfgAvifOnly : Settings :=
  { cfgPlain with
    image := { cfgPlain.image with formats := [ImageEncoding.AVIF] } }

/-- cfgPlain but with the example prefix template configured. -/
def cfgTpl : Settings := { cfgPlain with templates := [tplLarge] }

/-- cfgPlain but with PNG as the configured canonical storage format. -/
def cfgStoragePng : Settings :=
  { cfgPlain with
    image := { cfgPlain.image with storage_format := ImageEncoding.PNG } }

/-- A codec whose encode step reports the encoded buffer dimensions, for
observing whether a resize happened. -/
def codecDim : Codec :=
  { guessFormat := fun _ => some ImageFormat.Avif,
    decode := fun _ _ => some ⟨100, 100, false⟩,
    encodeBytes := fun b _ => [b.width, b.height] }

/-- Numeric tag of an ImageFormat, for codecs that report the target format. -/
def encFmtCode : ImageFormat → Nat
  | ImageFormat.Png => 0
  | ImageFormat.Jpeg => 1
  | ImageFormat.Avif => 2

/-- A codec whose encode step reports the target format, for observing which
encoding the processor actually produced. -/
def codecFmt : Codec :=
  { guessFormat := fun _ => some ImageFormat.Avif,
    decode := fun _ _ => some ⟨100, 100, false⟩,
    encodeBytes := fun _ f => [encFmtCode f] }

/-- A codec for the transcoder witness: decodes everything to a 10x10 buffer
that carries alpha, encodes to the buffer dimensions. -/
def codecAlpha : Codec :=
  { guessFormat := fun _ => some ImageFormat.Png,
    decode := fun _ _ => some ⟨10, 10, true⟩,
    encodeBytes := fun b _ => [b.width, b.height] }

/-- A filesystem holding canonical bytes where `process` looks for the
plain name "photo" under cfgPlain. -/
def fsPhoto : Fs := fun p =>
  if p = ["in", "photo.avif", "photo.avif"] then FsFile.content [7, 7, 7]
  else FsFile.notFound

/-- A filesystem holding canonical bytes where `process` looks for
"large_photo" once the prefix template stripped it to "photo". -/
def fsLargePhoto : Fs := fun p =>
  if p = ["in", "large_photo.avif", "photo.avif"] then FsFile.content [9, 9, 9]
  else FsFile.notFound

/-- The empty filesystem: every open fails with NotFound. -/
def fsNone : Fs := fun _ => FsFile.notFound

/-- A prefix template whose name is the whole requested name in the
degenerate no-underscore case. -/
def tplPhoto : TemplateSettings :=
  { location := TemplateType.Prefix, name := "photo", size := (9, 9),
    format := ImageEncoding.PNG }

/-- A bucketed storage over base directory "base" with no buckets scanned. -/
def storageEmpty : DiskStorage := { base_path := ["base"], folders := [] }

example : check_templates "large_photo" [tplLarge, tplFull] = some tplLarge := by decide
example : check_templates "photo_full" [tplLarge, tplFull] = some tplFull := by decide
example : check_templates "photo" [tplLarge, tplFull] = none := by decide
example : remove_template_pattern "large_photo" tplLarge = some "photo" := by decide
example : remove_template_pattern "photo_full" tplFull = some "photo" := by decide
example : check_templates "large"
  [{ location := TemplateType.Prefix, name := "large", size := (9, 9),
     format := ImageEncoding.PNG }] ≠ none := by decide

/-! Lemmas about `splitU`, `joinU`, `stripPre`, `stripSuf`. -/

theorem splitU_ne_nil (l : List Char) : splitU l ≠ [] := by
  cases l with
  | nil => simp [splitU]
  | cons c cs =>
    simp only [splitU]
    cases h : splitU cs with
    | nil => simp
    | cons a t => by_cases hc : c = '_' <;> simp [hc]

theorem joinU_cons_cons (x y : List Char) (t : List (List Char)) :
    joinU (x :: y :: t) = x ++ '_' :: joinU (y :: t) := rfl

theorem joinU_splitU (l : List Char) : joinU (splitU l) = l := by
  induction l with
  | nil => rfl
  | cons c cs ih =>
    simp only [splitU]
    cases h : splitU cs with
    | nil => exact absurd h (splitU_ne_nil cs)
    | cons a t =>
      rw [h] at ih
      by_cases hc : c = '_'
      · subst hc
        simp [joinU_cons_cons, ih]
      · simp only [if_neg hc]
        cases t with
        | nil =>
          simp only [joinU] at ih ⊢
          rw [ih]
        | cons b t' =>
          rw [joinU_cons_cons] at ih
          rw [joinU_cons_cons, List.cons_append, ← ih]

theorem splitU_of_not_mem (l : List Char) (h : '_' ∉ l) : splitU l = [l] := by
  induction l with
  | nil => rfl
  | cons c cs ih =>
    have hc : c ≠ '_' := fun hc => h (hc ▸ List.mem_cons_self c cs)
    have hcs : '_' ∉ cs := fun hm => h (List.mem_cons_of_mem c hm)
    simp only [splitU, ih hcs, if_neg hc]

theorem splitU_of_mem (l : List Char) (h : '_' ∈ l) :
    ∃ a b t, splitU l = a :: b :: t := by
  induction l with
  | nil => cases h
  | cons c cs ih =>
    simp only [splitU]
    cases hs : splitU cs with
    | nil => exact absurd hs (splitU_ne_nil cs)
    | cons a t =>
      by_cases hc : c = '_'
      · subst hc
        exact ⟨[], a, t, by simp⟩
      · have hm : '_' ∈ cs := by
          cases List.mem_cons.mp h with
          | inl h0 => exact absurd h0.symm hc
          | inr h0 => exact h0
        obtain ⟨x, y, t', hxy⟩ := ih hm
        rw [hs] at hxy
        injection hxy with h1 h2
        subst h1
        subst h2
        exact ⟨c :: a, y, t', by simp [hc]⟩

theorem stripPre_append (p r : List Char) : stripPre p (p ++ r) = some r := by
  induction p with
  | nil => rfl
  | cons c cs ih => simp [stripPre, ih]

theorem stripSuf_append (p a : List Char) : stripSuf p (a ++ p) = some a := by
  simp [stripSuf, List.reverse_append, stripPre_append]

theorem joinU_concat (xs : List (List Char)) (s : List Char) (h : xs ≠ []) :
    joinU (xs ++ [s]) = joinU xs ++ '_' :: s := by
  induction xs with
  | nil => exact absurd rfl h
  | cons x xs' ih =>
    cases xs' with
    | nil => simp [joinU]
    | cons y t =>
      have ih' : joinU ((y :: t) ++ [s]) = joinU (y :: t) ++ '_' :: s := ih (by simp)
      calc joinU ((x :: y :: t) ++ [s])
          = x ++ '_' :: joinU ((y :: t) ++ [s]) := rfl
        _ = x ++ '_' :: (joinU (y :: t) ++ '_' :: s) := by rw [ih']
        _ = (x ++ '_' :: joinU (y :: t)) ++ '_' :: s := by simp
        _ = joinU (x :: y :: t) ++ '_' :: s := rfl

/-! Lemmas about the template resolver. -/

theorem check_templates_eq_find (name : String) (ts : List TemplateSettings) :
    check_templates name ts = ts.find? (templateMatch name) := by
  unfold check_templates
  cases h : splitU name.data with
  | nil => exact absurd h (splitU_ne_nil name.data)
  | cons a rest => simp

theorem templateMatch_iff (name : String) (t : TemplateSettings) :
    templateMatch name t = true ↔
      ((t.location = TemplateType.Prefix ∧ some t.name.data = (splitU name.data).head?) ∨
       (t.location = TemplateType.Suffix ∧ some t.name.data = (splitU name.data).getLast?)) := by
  cases hs : splitU name.data with
  | nil => exact absurd hs (splitU_ne_nil name.data)
  | cons a rest =>
    cases hl : (a :: rest).getLast? with
    | none => simp at hl
    | some x =>
      simp only [templateMatch, hs, hl, List.head?_cons, Option.isSome_some,
        Option.getD_some, Bool.true_and, Bool.or_eq_true, Bool.and_eq_true,
        decide_eq_true_eq, Option.some.injEq]

theorem check_templates_cons (name : String) (t : TemplateSettings)
    (ts : List TemplateSettings) :
    check_templates name (t :: ts) =
      if templateMatch name t then some t else check_templates name ts := by
  rw [check_templates_eq_find, check_templates_eq_find]
  cases h : templateMatch name t with
  | true => simp [List.find?_cons_of_pos _ h]
  | false =>
    have hneg : ¬ templateMatch name t = true := by simp [h]
    simp [List.find?_cons_of_neg _ hneg, h]

theorem check_matched_strips (name : String) (ts : List TemplateSettings)
    (t : TemplateSettings) (hc : check_templates name ts = some t)
    (hu : '_' ∈ name.data) :
    ∃ stem, remove_template_pattern name t = some stem ∧
      ((t.location = TemplateType.Prefix ∧
          name.data = t.name.data ++ '_' :: stem.data) ∨
       (t.location = TemplateType.Suffix ∧
          name.data = stem.data ++ '_' :: t.name.data)) := by
  rw [check_templates_eq_find] at hc
  have hmatch := List.find?_some hc
  rw [templateMatch_iff] at hmatch
  obtain ⟨a, b, rest, hs⟩ := splitU_of_mem name.data hu
  have hjoin := joinU_splitU name.data
  rw [hs] at hjoin
  cases hmatch with
  | inl hp =>
    obtain ⟨hloc, hname⟩ := hp
    rw [hs] at hname
    have ha : t.name.data = a := by simpa using hname
    have hname_eq : name.data = t.name.data ++ '_' :: joinU (b :: rest) := by
      rw [ha, ← hjoin, joinU_cons_cons]
    have hstrip : stripPre (t.name.data ++ ['_']) name.data = some (joinU (b :: rest)) := by
      have h2 : t.name.data ++ '_' :: joinU (b :: rest) =
          (t.name.data ++ ['_']) ++ joinU (b :: rest) := by simp
      rw [hname_eq, h2, stripPre_append]
    exact ⟨String.mk (joinU (b :: rest)),
      by simp [remove_template_pattern, hloc, hstrip], Or.inl ⟨hloc, hname_eq⟩⟩
  | inr hsuf =>
    obtain ⟨hloc, hname⟩ := hsuf
    rw [hs] at hname
    obtain ⟨xs, hxs⟩ := List.getLast?_eq_some_iff.mp hname.symm
    have hxs_ne : xs ≠ [] := by
      intro h0
      rw [h0] at hxs
      simp at hxs
    have hname_eq : name.data = joinU xs ++ '_' :: t.name.data := by
      rw [← hjoin, hxs, joinU_concat xs _ hxs_ne]
    have hstrip : stripSuf ('_' :: t.name.data) name.data = some (joinU xs) := by
      rw [hname_eq]
      exact stripSuf_append ('_' :: t.name.data) (joinU xs)
    exact ⟨String.mk (joinU xs),
      by simp [remove_template_pattern, hloc, hstrip], Or.inr ⟨hloc, hname_eq⟩⟩

theorem templateMatch_no_underscore (name : String) (t : TemplateSettings)
    (h : '_' ∉ name.data) : templateMatch name t = true ↔ t.name = name := by
  rw [templateMatch_iff, splitU_of_not_mem name.data h]
  cases t.location <;> simp [String.ext_iff]

/-! Claim theorems. -/

/-- C1: the claim says a request with explicit width and height whose name
matches no template is transcoded with a resize operation appended, so the
returned image has the requested dimensions. The code builds the resize
vector and never passes it to transcode: with canonical bytes decoding to a
100x100 buffer and a 50/50/photo/jpeg request, the returned image keeps the
source dimensions 100x100 instead of the requested 50x50. -/
theorem C1_resize_never_applied :
    process cfgPlain codecDim fsPhoto "photo" ImageEncoding.JPEG (some ⟨50, 50⟩) =
      Except.ok [100, 100] ∧
    serve_resized cfgPlain codecDim fsPhoto 50 50 "photo" "jpeg" =
      ⟨200, some "image/jpeg", [100, 100]⟩ ∧
    ([100, 100] : List Nat) ≠ [50, 50] :=
  ⟨rfl, rfl, by decide⟩

/-- C2: the claim says add_new_file on an empty base creates one bucket and
writes the file inside it, and a second call reuses that bucket. In the code
`set_file_name` replaces the bucket component, so the file lands beside the
bucket in the base directory, and `create_new_folder` never updates the
in-memory folder list, so the second call on the same instance creates a
second bucket. A freshly scanned instance with one bucket creates no new
bucket but still writes beside it. -/
theorem C2_add_new_file_misplaces_file :
    (storageEmpty.add_new_file 0 "bin").dirs_created = [["base", "0"]] ∧
    (storageEmpty.add_new_file 0 "bin").file_path = ["base", "1.bin"] ∧
    (storageEmpty.add_new_file 0 "bin").file_path ≠ ["base", "0", "1.bin"] ∧
    (((storageEmpty.add_new_file 0 "bin").storage).add_new_file
        (storageEmpty.add_new_file 0 "bin").next_uuid "bin").dirs_created =
      [["base", "2"]] ∧
    ((DiskStorage.mk ["base"] [0]).add_new_file 1 "bin").dirs_created = [] ∧
    ((DiskStorage.mk ["base"] [0]).add_new_file 1 "bin").file_path =
      ["base", "1.bin"] := by
  refine ⟨rfl, rfl, by decide, rfl, rfl, rfl⟩

/-- C3: resolving "large_photo" against the example templates matches the
prefix template with canonical name "photo", and "photo_full" matches the
suffix template with canonical name "photo"; in general the templates are
scanned in configured order with the first match winning, a template matches
exactly when its (location, name) equals the first or last
underscore-delimited token, and for a matched name containing an underscore
the matched pattern is stripped to give the canonical stem. -/
theorem C3_template_resolution :
    (check_templates "large_photo" [tplLarge, tplFull] = some tplLarge ∧
     remove_template_pattern "large_photo" tplLarge = some "photo") ∧
    (check_templates "photo_full" [tplLarge, tplFull] = some tplFull ∧
     remove_template_pattern "photo_full" tplFull = some "photo") ∧
    (∀ (name : String) (t : TemplateSettings) (ts : List TemplateSettings),
      check_templates name (t :: ts) =
        if templateMatch name t then some t else check_templates name ts) ∧
    (∀ (name : String) (t : TemplateSettings),
      templateMatch name t = true ↔
        ((t.location = TemplateType.Prefix ∧
            some t.name.data = (splitU name.data).head?) ∨
         (t.location = TemplateType.Suffix ∧
            some t.name.data = (splitU name.data).getLast?))) ∧
    (∀ (name : String) (ts : List TemplateSettings) (t : TemplateSettings),
      check_templates name ts = some t → '_' ∈ name.data →
      ∃ stem, remove_template_pattern name t = some stem ∧
        ((t.location = TemplateType.Prefix ∧
            name.data = t.name.data ++ '_' :: stem.data) ∨
         (t.location = TemplateType.Suffix ∧
            name.data = stem.data ++ '_' :: t.name.data))) :=
  ⟨⟨by decide, by decide⟩, ⟨by decide, by decide⟩,
    fun name t ts => check_templates_cons name t ts,
    fun name t => templateMatch_iff name t,
    fun name ts t hc hu => check_matched_strips name ts t hc hu⟩

/-- Witness for C3: the stripping clause applied at the concrete input
"large_photo" with the example template list. -/
theorem C3_witness :
    (check_templates "large_photo" [tplLarge, tplFull] = some tplLarge ∧
     '_' ∈ "large_photo".data) ∧
    (∃ stem, remove_template_pattern "large_photo" tplLarge = some stem ∧
      ((tplLarge.location = TemplateType.Prefix ∧
          "large_photo".data = tplLarge.name.data ++ '_' :: stem.data) ∨
       (tplLarge.location = TemplateType.Suffix ∧
          "large_photo".data = stem.data ++ '_' :: tplLarge.name.data))) :=
  ⟨⟨by decide, by decide⟩,
    C3_template_resolution.2.2.2.2 "large_photo" [tplLarge, tplFull] tplLarge
      (by decide) (by decide)⟩

/-- C4: the claim says a name without an underscore can match no template.
But splitting "photo" yields the single token "photo", which serves as both
prefix and suffix candidate, so a template named "photo" does match. -/
theorem C4_no_underscore_can_match :
    check_templates "photo" [tplPhoto] = some tplPhoto ∧
    '_' ∉ "photo".data := by
  refine ⟨by decide, by decide⟩

/-- C4 amended: for a name with no underscore the single split token is both
the prefix and the suffix candidate (neither is absent), so resolution fails
with NoTemplateMatch exactly when no configured template's name equals the
whole requested name. -/
theorem C4_amended_no_underscore :
    ∀ (name : String) (ts : List TemplateSettings), '_' ∉ name.data →
      (check_templates name ts = none ↔ ∀ t ∈ ts, ¬ t.name = name) := by
  intro name ts h
  rw [check_templates_eq_find, List.find?_eq_none]
  exact ⟨fun hall t ht heq =>
      hall t ht ((templateMatch_no_underscore name t h).mpr heq),
    fun hall t ht hm =>
      hall t ht ((templateMatch_no_underscore name t h).mp hm)⟩

/-- Witness for the amended C4 at the concrete name "photo" against the
suffix template named "full". -/
theorem C4_amended_witness :
    ('_' ∉ "photo".data) ∧
    (check_templates "photo" [tplFull] = none ↔
      ∀ t ∈ [tplFull], ¬ t.name = "photo") :=
  ⟨by decide, C4_amended_no_underscore "photo" [tplFull] (by decide)⟩

/-- C5: the claim says every request shape rejects a known but disallowed
extension with 400. The resized handler never consults the allow-list: with
only AVIF allowed, a 10/10/photo/jpeg request is served with 200. -/
theorem C5_resized_skips_allowlist :
    serve_resized cfgAvifOnly codecDim fsPhoto 10 10 "photo" "jpeg" =
      ⟨200, some "image/jpeg", [100, 100]⟩ ∧
    ImageEncoding.JPEG ∉ cfgAvifOnly.image.formats :=
  ⟨rfl, by decide⟩

/-- C5 amended: only the request shapes without explicit width/height
enforce the allow-list: serve_image answers 400 whenever the parsed
extension is a known encoding missing from the configured formats. -/
theorem C5_amended_serve_image_allowlist :
    ∀ (config : Settings) (c : Codec) (fs : Fs) (image ext : String)
      (e : ImageEncoding),
      extensionFromStr ext = some e → e ∉ config.image.formats →
      serve_image config c fs image ext = ⟨400, none, []⟩ := by
  intro config c fs image ext e he hmem
  simp [serve_image, he, hmem]

/-- Witness for the amended C5: jpeg against the AVIF-only allow-list. -/
theorem C5_amended_witness :
    (extensionFromStr "jpeg" = some ImageEncoding.JPEG ∧
     ImageEncoding.JPEG ∉ cfgAvifOnly.image.formats) ∧
    serve_image cfgAvifOnly codecDim fsPhoto "photo" "jpeg" = ⟨400, none, []⟩ :=
  ⟨⟨by decide, by decide⟩,
    C5_amended_serve_image_allowlist cfgAvifOnly codecDim fsPhoto "photo" "jpeg"
      ImageEncoding.JPEG (by decide) (by decide)⟩

/-- C6: the claim says an absent canonical file yields response status 404,
distinct from the 500 used for other failures. The processor does signal a
distinct NotFound error, but both handlers map every processing error to
500, so the response is 500, never 404. -/
theorem C6_not_found_maps_to_500 :
    process cfgPlain codecDim fsNone "photo" ImageEncoding.AVIF none =
      Except.error ProcessError.NotFoundErr ∧
    serve_image cfgPlain codecDim fsNone "photo" "avif" = ⟨500, none, []⟩ ∧
    (500 : Nat) ≠ 404 :=
  ⟨rfl, rfl, by decide⟩

/-- C6 amended: when the canonical file is absent, `process` fails with the
distinct NotFound error, but the handler maps it — like every processing
error — to a 500 response. -/
theorem C6_amended_notfound_gives_500 :
    ∀ (config : Settings) (c : Codec) (fs : Fs) (name ext : String)
      (e : ImageEncoding) (p : FsPath),
      extensionFromStr ext = some e → e ∈ config.image.formats →
      process_path config name = Except.ok p → fs p = FsFile.notFound →
      process config c fs name e none = Except.error ProcessError.NotFoundErr ∧
      serve_image config c fs name ext = ⟨500, none, []⟩ := by
  intro config c fs name ext e p hext hmem hpath hfs
  have hproc : process config c fs name e none =
      Except.error ProcessError.NotFoundErr := by
    simp [process, hpath, hfs]
  exact ⟨hproc, by simp [serve_image, hext, hmem, hproc]⟩

/-- Witness for the amended C6: the empty filesystem and the plain
configuration. -/
theorem C6_amended_witness :
    (extensionFromStr "avif" = some ImageEncoding.AVIF ∧
     ImageEncoding.AVIF ∈ cfgPlain.image.formats ∧
     process_path cfgPlain "photo" =
       Except.ok ["in", "photo.avif", "photo.avif"] ∧
     fsNone ["in", "photo.avif", "photo.avif"] = FsFile.notFound) ∧
    (process cfgPlain codecDim fsNone "photo" ImageEncoding.AVIF none =
       Except.error ProcessError.NotFoundErr ∧
     serve_image cfgPlain codecDim fsNone "photo" "avif" = ⟨500, none, []⟩) :=
  ⟨⟨by decide, by decide, rfl, rfl⟩,
    C6_amended_notfound_gives_500 cfgPlain codecDim fsNone "photo" "avif"
      ImageEncoding.AVIF ["in", "photo.avif", "photo.avif"]
      (by decide) (by decide) rfl rfl⟩

/-- C7: whenever the transcode target is JPEG, the decoded buffer is forced
through to_rgb8 before encoding, so transcoding never fails with a
channel-mismatch error, and on an alpha-carrying source it succeeds with the
alpha dropped. -/
theorem C7_jpeg_strips_alpha :
    ∀ (c : Codec) (image : List Nat) (extension : String)
      (ops : Option (List Operations)),
      (transcode c image extension ImageFormat.Jpeg ops ≠
        Except.error TranscodeError.ChannelMismatch) ∧
      (∀ fmt buf, c.guessFormat image = some fmt → c.decode image fmt = some buf →
        transcode c image extension ImageFormat.Jpeg ops =
          Except.ok (c.encodeBytes (to_rgb8 ((ops.getD []).foldl applyOp buf))
            ImageFormat.Jpeg)) := by
  intro c image extension ops
  constructor
  · cases hg : c.guessFormat image with
    | some f =>
      cases hd : c.decode image f with
      | some b => simp [transcode, hg, hd, writeTo, to_rgb8]
      | none => simp [transcode, hg, hd]
    | none =>
      cases he : extFallback extension with
      | some f =>
        cases hd : c.decode image f with
        | some b => simp [transcode, hg, he, hd, writeTo, to_rgb8]
        | none => simp [transcode, hg, he, hd]
      | none => simp [transcode, hg, he]
  · intro fmt buf hg hd
    simp [transcode, hg, hd, writeTo, to_rgb8]

/-- Witness for C7: a codec that decodes to a 10x10 buffer with alpha;
encoding to JPEG succeeds and reports the preserved dimensions. -/
theorem C7_witness :
    (codecAlpha.guessFormat [0] = some ImageFormat.Png ∧
     codecAlpha.decode [0] ImageFormat.Png = some ⟨10, 10, true⟩) ∧
    transcode codecAlpha [0] "x" ImageFormat.Jpeg none = Except.ok [10, 10] :=
  ⟨⟨rfl, rfl⟩,
    (C7_jpeg_strips_alpha codecAlpha [0] "x" none).2 ImageFormat.Png
      ⟨10, 10, true⟩ rfl rfl⟩

/-- C8: the claim says the Content-Type always matches the bytes returned,
with a matched template's format reflected in the header. In the code the
header is built from the caller-requested extension before `process` runs:
for "large_photo"/"jpeg" with the PNG prefix template, the body is
PNG-encoded while the header says image/jpeg. -/
theorem C8_header_not_template_format :
    serve_image cfgTpl codecFmt fsLargePhoto "large_photo" "jpeg" =
      ⟨200, some ImageEncoding.JPEG.content_type, [encFmtCode ImageFormat.Png]⟩ ∧
    ImageEncoding.JPEG.content_type ≠ ImageEncoding.PNG.content_type :=
  ⟨rfl, by decide⟩

/-- C8 amended: a successful response always carries the caller-requested
extension's content type, while a matched template makes `process` transcode
to the template's configured format and size, so the body's encoding can
differ from the header. -/
theorem C8_amended_header_is_requested :
    ∀ (config : Settings) (c : Codec) (fs : Fs) (image ext : String)
      (e : ImageEncoding) (b : List Nat),
      extensionFromStr ext = some e → e ∈ config.image.formats →
      process config c fs image e none = Except.ok b →
      (serve_image config c fs image ext = ⟨200, some e.content_type, b⟩ ∧
       ∀ template p bytes,
         check_templates image config.templates = some template →
         process_path config image = Except.ok p →
         fs p = FsFile.content bytes →
         process config c fs image e none =
           (transcode c bytes template.format.extension
              (encodingToImageFormat template.format)
              (some [Operations.Resize ⟨template.size.1, template.size.2⟩])).mapError
             ProcessError.Transcode) := by
  intro config c fs image ext e b hext hmem hproc
  refine ⟨by simp [serve_image, hext, hmem, hproc], ?_⟩
  intro template p bytes ht hp hf
  simp [process, hp, hf, ht]

/-- Witness for the amended C8 at "large_photo"/"jpeg" with the PNG prefix
template. -/
theorem C8_amended_witness :
    (extensionFromStr "jpeg" = some ImageEncoding.JPEG ∧
     ImageEncoding.JPEG ∈ cfgTpl.image.formats ∧
     process cfgTpl codecFmt fsLargePhoto "large_photo" ImageEncoding.JPEG none =
       Except.ok [encFmtCode ImageFormat.Png]) ∧
    (serve_image cfgTpl codecFmt fsLargePhoto "large_photo" "jpeg" =
       ⟨200, some ImageEncoding.JPEG.content_type, [encFmtCode ImageFormat.Png]⟩ ∧
     ∀ template p bytes,
       check_templates "large_photo" cfgTpl.templates = some template →
       process_path cfgTpl "large_photo" = Except.ok p →
       fsLargePhoto p = FsFile.content bytes →
       process cfgTpl codecFmt fsLargePhoto "large_photo" ImageEncoding.JPEG none =
         (transcode codecFmt bytes template.format.extension
            (encodingToImageFormat template.format)
            (some [Operations.Resize ⟨template.size.1, template.size.2⟩])).mapError
           ProcessError.Transcode) :=
  ⟨⟨by decide, by decide, rfl⟩,
    C8_amended_header_is_requested cfgTpl codecFmt fsLargePhoto "large_photo"
      "jpeg" ImageEncoding.JPEG [encFmtCode ImageFormat.Png]
      (by decide) (by decide) rfl⟩

/-- C9: the claim says the extension of a bare GET /name request defaults to
the configured canonical storage format. The handler hardcodes "avif": with
PNG configured as storage format, the default route still serves AVIF with
an image/avif header. -/
theorem C9_default_ext_is_constant_avif :
    default_serve_image cfgStoragePng codecDim fsPhoto "photo" =
      ⟨200, some "image/avif", [7, 7, 7]⟩ ∧
    cfgStoragePng.image.storage_format = ImageEncoding.PNG ∧
    ImageEncoding.PNG.content_type ≠ "image/avif" :=
  ⟨rfl, rfl, by decide⟩

/-- C9 amended: for every configuration the default route is exactly
serve_image with the literal extension "avif", regardless of the configured
storage format. -/
theorem C9_amended_default_is_avif :
    ∀ (config : Settings) (c : Codec) (fs : Fs) (image : String),
      default_serve_image config c fs image = serve_image config c fs image "avif" :=
  fun _ _ _ _ => rfl

/-- C10: the claim says a successful template match guarantees the pattern
strip cannot panic. For the name "large" with the prefix template named
"large", check_templates matches via the degenerate single token, yet
"large_" is not a prefix of "large", so the strip returns none and the
source's unwrap panics. -/
theorem C10_matched_strip_panics :
    check_templates "large" [tplLarge] = some tplLarge ∧
    remove_template_pattern "large" tplLarge = none := by
  refine ⟨by decide, by decide⟩

/-- C10 amended: if check_templates matches and the requested name contains
at least one underscore, the matched pattern really is a prefix or suffix
and remove_template_pattern succeeds (the unwrap cannot panic); only the
degenerate underscore-free match can panic. -/
theorem C10_amended_strip_succeeds :
    ∀ (name : String) (ts : List TemplateSettings) (t : TemplateSettings),
      check_templates name ts = some t → '_' ∈ name.data →
      (remove_template_pattern name t).isSome = true := by
  intro name ts t hc hu
  obtain ⟨stem, hstem, _⟩ := check_matched_strips name ts t hc hu
  simp [hstem]

/-- Witness for the amended C10 at "large_photo" against the prefix
template. -/
theorem C10_amended_witness :
    (check_templates "large_photo" [tplLarge] = some tplLarge ∧
     '_' ∈ "large_photo".data) ∧
    (remove_template_pattern "large_photo" tplLarge).isSome = true :=
  ⟨⟨by decide, by decide⟩,
    C10_amended_strip_succeeds "large_photo" [tplLarge] tplLarge
      (by decide) (by decide)⟩
